import Mathlib

/-!
Verification of the clickcheck core pipeline: a shallow embedding of the
streaming analyzer (`src/analyzer.rs`), the query/filter builder
(`src/client/filter.rs`) and the multi-node fan-out client
(`src/client.rs`), together with proofs of the specified properties.

Machine integers: every Rust `u64` field is modelled as a `Nat` together
with explicit reduction modulo `2 ^ 64` wherever the source performs
`u64` addition (release-mode Rust `+` wraps).  Rust `i32` error codes are
modelled as `Int`.  `OffsetDateTime` values are modelled by their unix
timestamp in seconds plus their stored UTC offset in seconds; comparisons
of two such values compare the instants.  Event-time bounds inside
aggregated rows only ever flow through `min`/`max`, so they are modelled
directly as instants (`Int`).
-/

namespace Clickcheck

/-- Modulus of unsigned 64-bit machine arithmetic. -/
def U64MOD : Nat := 2 ^ 64

/-- Rust release-mode `u64` addition: wraps modulo `2 ^ 64`. -/
def add64 (a b : Nat) : Nat := (a + b) % U64MOD

/-- Model of `time::OffsetDateTime`: the unix timestamp of the instant in
seconds, together with the stored UTC offset in seconds.  The civil
(wall-clock) fields stored by the Rust value are recovered as the civil
decomposition of `unixSec + offsetSec`. -/
structure OffsetDateTime where
  unixSec : Int
  offsetSec : Int
deriving DecidableEq

/-- Model of `model::QueryLog` (src/model.rs).  Event-time bounds are
modelled as instants (`Int`), string sets as `List String`. -/
structure QueryLog where
  normalized_query_hash : Nat
  query : String
  max_event_time : Int
  min_event_time : Int
  total_query_duration_ms : Nat
  total_read_rows : Nat
  total_read_bytes : Nat
  total_memory_usage : Nat
  total_user_time_us : Nat
  total_system_time_us : Nat
  total_network_receive_bytes : Nat
  total_network_send_bytes : Nat
  users : List String
  databases : List String
  tables : List String
  io_impact : Nat
  network_impact : Nat
  cpu_impact : Nat
  memory_impact : Nat
  time_impact : Nat
  total_impact : Nat
deriving DecidableEq

/-- Model of `model::QueryLogTotal` (src/model.rs). -/
structure QueryLogTotal where
  queries_count : Nat
  io_impact : Nat
  network_impact : Nat
  cpu_impact : Nat
  memory_impact : Nat
  time_impact : Nat
  total_impact : Nat
deriving DecidableEq

/-- Model of `model::Error` (src/model.rs): one row of grouped
`system.errors` statistics. -/
structure Error where
  code : Int
  name : String
  count : Nat
  last_error_time : Int
  error_message : String
deriving DecidableEq

/-- Model of `model::QueriesSortBy` (src/model.rs). -/
inductive QueriesSortBy where
  | TotalImpact
  | IOImpact
  | CPUImpact
  | MemoryImpact
  | TimeImpact
  | NetworkImpact
deriving DecidableEq

/-- Removal of consecutive duplicates, as Rust `Vec::dedup` performs it. -/
def dedupAdjacent {α : Type} [DecidableEq α] : List α → List α
  | [] => []
  | [a] => [a]
  | a :: b :: rest =>
      if a = b then dedupAdjacent (b :: rest) else a :: dedupAdjacent (b :: rest)

/-- Model of `merge_string_vecs` (src/analyzer.rs lines 194-198): extend the
target with the source, sort, then drop consecutive duplicates.  Rust's
`sort_unstable` over `String`'s lexicographic order is modelled by
`List.insertionSort` over the lexicographic order on `String`; over a
linear order every sort produces the same (unique) sorted permutation. -/
def merge_string_vecs (target source : List String) : List String :=
  dedupAdjacent (List.insertionSort (· ≤ ·) (target ++ source))

/-- Body of the `and_modify` closure in `Analyzer::merge_query`
(src/analyzer.rs lines 106-132): fold one incoming row into the existing
record for the same fingerprint.  Fields not assigned by the closure
(`normalized_query_hash`, `query`) keep the existing record's values. -/
def mergeQueryInto (existing log : QueryLog) : QueryLog :=
  { existing with
    total_query_duration_ms := add64 existing.total_query_duration_ms log.total_query_duration_ms
    total_read_rows := add64 existing.total_read_rows log.total_read_rows
    total_read_bytes := add64 existing.total_read_bytes log.total_read_bytes
    total_memory_usage := add64 existing.total_memory_usage log.total_memory_usage
    total_user_time_us := add64 existing.total_user_time_us log.total_user_time_us
    total_system_time_us := add64 existing.total_system_time_us log.total_system_time_us
    total_network_send_bytes := add64 existing.total_network_send_bytes log.total_network_send_bytes
    total_network_receive_bytes := add64 existing.total_network_receive_bytes log.total_network_receive_bytes
    max_event_time := max existing.max_event_time log.max_event_time
    min_event_time := min existing.min_event_time log.min_event_time
    users := merge_string_vecs existing.users log.users
    databases := merge_string_vecs existing.databases log.databases
    tables := merge_string_vecs existing.tables log.tables
    io_impact := add64 existing.io_impact log.io_impact
    cpu_impact := add64 existing.cpu_impact log.cpu_impact
    memory_impact := add64 existing.memory_impact log.memory_impact
    time_impact := add64 existing.time_impact log.time_impact
    network_impact := add64 existing.network_impact log.network_impact
    total_impact := add64 existing.total_impact log.total_impact }

/-- Model of `Analyzer::merge_query` (src/analyzer.rs lines 103-134).  The
`HashMap<u64, QueryLog>` keyed by `normalized_query_hash` is modelled as a
list of records; `entry(..).and_modify(..).or_insert(log)` either folds the
row into the record with the same hash or inserts the row verbatim. -/
def merge_query (queries : List QueryLog) (log : QueryLog) : List QueryLog :=
  if queries.any fun q => q.normalized_query_hash == log.normalized_query_hash then
    queries.map fun q =>
      if q.normalized_query_hash == log.normalized_query_hash then mergeQueryInto q log else q
  else
    queries ++ [log]

/-- Model of `Analyzer::merge_query_total` (src/analyzer.rs lines 92-101):
fold one `QueryLogTotal` row into the running accumulator. -/
def merge_query_total (acc log : QueryLogTotal) : QueryLogTotal :=
  { queries_count := add64 acc.queries_count log.queries_count
    io_impact := add64 acc.io_impact log.io_impact
    cpu_impact := add64 acc.cpu_impact log.cpu_impact
    memory_impact := add64 acc.memory_impact log.memory_impact
    time_impact := add64 acc.time_impact log.time_impact
    network_impact := add64 acc.network_impact log.network_impact
    total_impact := add64 acc.total_impact log.total_impact }

/-- Model of `Analyzer::merge_error` (src/analyzer.rs lines 136-146):
counts are summed, `last_error_time` keeps the later value, and the
first-seen `name`/`error_message` are retained. -/
def mergeErrorInto (existing err : Error) : Error :=
  { existing with
    count := add64 existing.count err.count
    last_error_time :=
      if existing.last_error_time < err.last_error_time then err.last_error_time
      else existing.last_error_time }

/-- Model of the error branch of `entry(..).and_modify(..).or_insert(err)`
in `Analyzer::merge_error`, with the `HashMap<i32, Error>` keyed by `code`
modelled as a list of records. -/
def merge_error (errors : List Error) (err : Error) : List Error :=
  if errors.any fun e => e.code == err.code then
    errors.map fun e => if e.code == err.code then mergeErrorInto e err else e
  else
    errors ++ [err]

/-- Model of `Analyzer::collect_logs` (src/analyzer.rs lines 148-152): the
channel's row stream is the input list, consumed in order from an empty
grouping table. -/
def collect_logs (logs : List QueryLog) : List QueryLog :=
  logs.foldl merge_query []

/-- Model of `Analyzer::collect_logs_total` (src/analyzer.rs lines
154-158), starting from `QueryLogTotal::default()` (all fields zero). -/
def collect_logs_total (logs : List QueryLogTotal) : QueryLogTotal :=
  logs.foldl merge_query_total ⟨0, 0, 0, 0, 0, 0, 0⟩

/-- Sort key selected by `sort_by` in `Analyzer::top_queries`
(src/analyzer.rs lines 169-178). -/
def sortKey (sort_by : QueriesSortBy) (q : QueryLog) : Nat :=
  match sort_by with
  | .TotalImpact => q.total_impact
  | .IOImpact => q.io_impact
  | .CPUImpact => q.cpu_impact
  | .MemoryImpact => q.memory_impact
  | .TimeImpact => q.time_impact
  | .NetworkImpact => q.network_impact

/-- Comparison used by `sort_by_key(|q| Reverse(metric))`: descending in
the selected metric. -/
def queryLe (sort_by : QueriesSortBy) (a b : QueryLog) : Prop :=
  sortKey sort_by b ≤ sortKey sort_by a

instance (sort_by : QueriesSortBy) : DecidableRel (queryLe sort_by) := fun a b =>
  inferInstanceAs (Decidable (sortKey sort_by b ≤ sortKey sort_by a))

instance (sort_by : QueriesSortBy) : IsTotal QueryLog (queryLe sort_by) :=
  ⟨fun a b => le_total (sortKey sort_by b) (sortKey sort_by a)⟩

instance (sort_by : QueriesSortBy) : IsTrans QueryLog (queryLe sort_by) :=
  ⟨fun _ _ _ hab hbc => le_trans hbc hab⟩

/-- Model of `Analyzer::top_queries` (src/analyzer.rs lines 166-182): a
stable sort descending by the selected metric, truncated to `limit`.
Rust's stable `sort_by_key` is modelled by the stable `insertionSort`. -/
def top_queries (queries : List QueryLog) (limit : Nat) (sort_by : QueriesSortBy) :
    List QueryLog :=
  (List.insertionSort (queryLe sort_by) queries).take limit

/-- Comparison used by `sort_by_key(|e| (Reverse(e.count), e.code))` in
`Analyzer::top_errors`: count descending, then code ascending. -/
def errKeyLe (a b : Error) : Prop :=
  b.count < a.count ∨ (a.count = b.count ∧ a.code ≤ b.code)

instance : DecidableRel errKeyLe := fun a b =>
  inferInstanceAs (Decidable (b.count < a.count ∨ (a.count = b.count ∧ a.code ≤ b.code)))

instance : IsTotal Error errKeyLe := by
  constructor
  intro a b
  rcases lt_trichotomy a.count b.count with h | h | h
  · exact Or.inr (Or.inl h)
  · rcases le_total a.code b.code with hc | hc
    · exact Or.inl (Or.inr ⟨h, hc⟩)
    · exact Or.inr (Or.inr ⟨h.symm, hc⟩)
  · exact Or.inl (Or.inl h)

instance : IsTrans Error errKeyLe := by
  constructor
  rintro a b c (hab | ⟨hab, hab'⟩) (hbc | ⟨hbc, hbc'⟩)
  · exact Or.inl (lt_trans hbc hab)
  · exact Or.inl (hbc ▸ hab)
  · exact Or.inl (hab ▸ hbc)
  · exact Or.inr ⟨hab.trans hbc, hab'.trans hbc'⟩

/-- Model of `Analyzer::top_errors` (src/analyzer.rs lines 184-191): a
stable sort by `(count descending, code ascending)`, truncated to
`limit`. -/
def top_errors (errors : List Error) (limit : Nat) : List Error :=
  (List.insertionSort errKeyLe errors).take limit

/-- Invariant claimed by the spec for every grouped record:
`total_impact` equals the `u64` sum of the five component impacts. -/
def QueryLog.impactInv (q : QueryLog) : Prop :=
  q.total_impact =
    (q.io_impact + q.cpu_impact + q.memory_impact + q.time_impact + q.network_impact) % U64MOD

/-- Same invariant for the ungrouped accumulator. -/
def QueryLogTotal.impactInv (t : QueryLogTotal) : Prop :=
  t.total_impact =
    (t.io_impact + t.cpu_impact + t.memory_impact + t.time_impact + t.network_impact) % U64MOD

/-- Model of `filter::QueryParam` (src/client/filter.rs lines 21-27). -/
inductive QueryParam where
  | DateTime (t : OffsetDateTime)
  | UInt64 (v : Nat)
  | Int32 (v : Int)
  | String (v : String)
deriving DecidableEq

/-- Left-pad a decimal rendering to two digits, as the `time` crate's
default `[month]`/`[day]`/`[hour]`/`[minute]`/`[second]` components do. -/
def pad2 (n : Nat) : String :=
  if n < 10 then "0" ++ toString n else toString n

/-- Left-pad a decimal rendering to four digits, as the `time` crate's
default `[year]` component does (for the non-negative years in scope). -/
def pad4 (n : Nat) : String :=
  if n < 10 then "000" ++ toString n
  else if n < 100 then "00" ++ toString n
  else if n < 1000 then "0" ++ toString n
  else toString n

/-- Civil (proleptic Gregorian) date of a day count relative to
1970-01-01, by the standard days-to-civil algorithm. -/
def civilFromDays (days : Int) : Int × Nat × Nat :=
  let z := days + 719468
  let era := z / 146097
  let doe := (z - era * 146097).toNat
  let yoe := (doe - doe / 1460 + doe / 36524 - doe / 146096) / 365
  let doy := doe - (365 * yoe + yoe / 4 - yoe / 100)
  let mp := (5 * doy + 2) / 153
  let d := doy - (153 * mp + 2) / 5 + 1
  let m := if mp < 10 then mp + 3 else mp - 9
  (if m ≤ 2 then era * 400 + yoe + 1 else era * 400 + yoe, m, d)

/-- Render the instant `t` (unix seconds) as `YYYY-MM-DD HH:MM:SS`, the
civil UTC decomposition of the instant. -/
def renderUTC (t : Int) : String :=
  let days := t / 86400
  let sod := (t % 86400).toNat
  let c := civilFromDays days
  pad4 c.1.toNat ++ "-" ++ pad2 c.2.1 ++ "-" ++ pad2 c.2.2 ++ " " ++
    pad2 (sod / 3600) ++ ":" ++ pad2 (sod % 3600 / 60) ++ ":" ++ pad2 (sod % 60)

/-- What the spec asserts the timestamp rendering to be: the
`YYYY-MM-DD HH:MM:SS` form of the instant expressed in UTC, for every
stored offset. -/
def utcRender (t : OffsetDateTime) : String :=
  renderUTC t.unixSec

/-- Model of `QueryParam::to_sql_string` (src/client/filter.rs lines
29-42).  The Rust method formats the `OffsetDateTime`'s stored civil
fields with the description `[year]-[month]-[day] [hour]:[minute]:[second]`,
i.e. the civil decomposition of `unixSec + offsetSec`, without converting
to UTC.  The Rust `Result` is always `Ok` for this fixed well-formed
format description, so the model returns the string directly. -/
def to_sql_string : QueryParam → String
  | .DateTime t => renderUTC (t.unixSec + t.offsetSec)
  | .UInt64 v => toString v
  | .Int32 v => toString v
  | .String v => v

/-- Model of `filter::QueryLogFilter` (src/client/filter.rs lines 6-19).
Rust's `from`/`to` are Lean keywords/too generic, hence `from_`/`to_`.
Durations are modelled in the unit the builder consumes them in:
`last` in seconds (subtracted from `now`), `min_query_duration` in
milliseconds (the builder calls `as_millis`), `min_read_data` in bytes
(the builder calls `as_u64`). -/
structure QueryLogFilter where
  from_ : Option OffsetDateTime
  to_ : Option OffsetDateTime
  last : Option Nat
  users : List String
  databases : List String
  tables : List String
  min_query_duration : Option Nat
  min_read_rows : Option Nat
  min_read_data : Option Nat
deriving DecidableEq

/-- The `vec!["?"; n].join(", ")` placeholder list. -/
def qMarks : Nat → String
  | 0 => ""
  | 1 => "?"
  | n + 2 => "?" ++ ", " ++ qMarks (n + 1)

/-- Rust `Vec<String>::join(sep)`. -/
def joinSep (sep : String) : List String → String
  | [] => ""
  | [s] => s
  | s :: rest => s ++ sep ++ joinSep sep rest

/-- One `clauses.push(..)` paired with the `params.push(..)` calls made in
the same branch of `QueryLogFilter::build_where`. -/
abbrev Block := String × List QueryParam

/-- Step of `build_where` for `self.from` (src/client/filter.rs lines
50-53). -/
def pushFrom (f : QueryLogFilter) (cp : List String × List QueryParam) :
    List String × List QueryParam :=
  match f.from_ with
  | some t => (cp.1 ++ ["event_time >= toDateTime(?, 'UTC')"], cp.2 ++ [QueryParam.DateTime t])
  | none => cp

/-- Step of `build_where` for `self.last` (lines 54-59): the threshold is
`now - last` computed at build time, with `now` taken as an argument of
the model (`OffsetDateTime::now_utc()` carries offset 0). -/
def pushLast (f : QueryLogFilter) (now : Int) (cp : List String × List QueryParam) :
    List String × List QueryParam :=
  match f.last with
  | some last =>
      (cp.1 ++ ["event_time >= toDateTime(?, 'UTC')"],
       cp.2 ++ [QueryParam.DateTime ⟨now - last, 0⟩])
  | none => cp

/-- Step of `build_where` for `self.to` (lines 60-63). -/
def pushTo (f : QueryLogFilter) (cp : List String × List QueryParam) :
    List String × List QueryParam :=
  match f.to_ with
  | some t => (cp.1 ++ ["event_time < toDateTime(?, 'UTC')"], cp.2 ++ [QueryParam.DateTime t])
  | none => cp

/-- Step of `build_where` for `self.users` (lines 65-71). -/
def pushUsers (f : QueryLogFilter) (cp : List String × List QueryParam) :
    List String × List QueryParam :=
  if f.users = [] then cp
  else
    (cp.1 ++ ["user IN (" ++ qMarks f.users.length ++ ")"],
     cp.2 ++ f.users.map QueryParam.String)

/-- Step of `build_where` for `self.min_read_rows` (lines 72-75). -/
def pushMinReadRows (f : QueryLogFilter) (cp : List String × List QueryParam) :
    List String × List QueryParam :=
  match f.min_read_rows with
  | some v => (cp.1 ++ ["read_rows >= ?"], cp.2 ++ [QueryParam.UInt64 v])
  | none => cp

/-- Step of `build_where` for `self.min_read_data` (lines 76-80). -/
def pushMinReadData (f : QueryLogFilter) (cp : List String × List QueryParam) :
    List String × List QueryParam :=
  match f.min_read_data with
  | some v => (cp.1 ++ ["read_bytes >= ?"], cp.2 ++ [QueryParam.UInt64 v])
  | none => cp

/-- Step of `build_where` for `self.min_query_duration` (lines 81-85). -/
def pushMinQueryDuration (f : QueryLogFilter) (cp : List String × List QueryParam) :
    List String × List QueryParam :=
  match f.min_query_duration with
  | some v => (cp.1 ++ ["query_duration_ms >= ?"], cp.2 ++ [QueryParam.UInt64 v])
  | none => cp

/-- Step of `build_where` for `self.tables` (lines 87-93). -/
def pushTables (f : QueryLogFilter) (cp : List String × List QueryParam) :
    List String × List QueryParam :=
  if f.tables = [] then cp
  else
    (cp.1 ++ ["hasAny(query_log.tables, [" ++ qMarks f.tables.length ++ "])"],
     cp.2 ++ f.tables.map QueryParam.String)

/-- Step of `build_where` for `self.databases` (lines 94-100). -/
def pushDatabases (f : QueryLogFilter) (cp : List String × List QueryParam) :
    List String × List QueryParam :=
  if f.databases = [] then cp
  else
    (cp.1 ++ ["hasAny(query_log.databases, [" ++ qMarks f.databases.length ++ "])"],
     cp.2 ++ f.databases.map QueryParam.String)

/-- Model of `QueryLogFilter::build_where` (src/client/filter.rs lines
46-109): the clause vector and parameter vector are built by the same
sequence of conditional pushes as the source, then the clauses are joined
with `" AND "` behind a leading `"AND "`. -/
def build_where (f : QueryLogFilter) (now : Int) : String × List QueryParam :=
  let cp := pushDatabases f (pushTables f (pushMinQueryDuration f (pushMinReadData f
    (pushMinReadRows f (pushUsers f (pushTo f (pushLast f now (pushFrom f ([], [])))))))))
  (if cp.1 = [] then "" else "AND " ++ joinSep " AND " cp.1, cp.2)

/-- The clause/parameter contribution of each branch of `build_where`, in
source order: used to state that parameters line up with placeholders. -/
def fromBlocks (f : QueryLogFilter) : List Block :=
  match f.from_ with
  | some t => [("event_time >= toDateTime(?, 'UTC')", [QueryParam.DateTime t])]
  | none => []

def lastBlocks (f : QueryLogFilter) (now : Int) : List Block :=
  match f.last with
  | some last => [("event_time >= toDateTime(?, 'UTC')", [QueryParam.DateTime ⟨now - last, 0⟩])]
  | none => []

def toBlocks (f : QueryLogFilter) : List Block :=
  match f.to_ with
  | some t => [("event_time < toDateTime(?, 'UTC')", [QueryParam.DateTime t])]
  | none => []

def usersBlocks (f : QueryLogFilter) : List Block :=
  if f.users = [] then []
  else [("user IN (" ++ qMarks f.users.length ++ ")", f.users.map QueryParam.String)]

def minReadRowsBlocks (f : QueryLogFilter) : List Block :=
  match f.min_read_rows with
  | some v => [("read_rows >= ?", [QueryParam.UInt64 v])]
  | none => []

def minReadDataBlocks (f : QueryLogFilter) : List Block :=
  match f.min_read_data with
  | some v => [("read_bytes >= ?", [QueryParam.UInt64 v])]
  | none => []

def minQueryDurationBlocks (f : QueryLogFilter) : List Block :=
  match f.min_query_duration with
  | some v => [("query_duration_ms >= ?", [QueryParam.UInt64 v])]
  | none => []

def tablesBlocks (f : QueryLogFilter) : List Block :=
  if f.tables = [] then []
  else [("hasAny(query_log.tables, [" ++ qMarks f.tables.length ++ "])",
         f.tables.map QueryParam.String)]

def databasesBlocks (f : QueryLogFilter) : List Block :=
  if f.databases = [] then []
  else [("hasAny(query_log.databases, [" ++ qMarks f.databases.length ++ "])",
         f.databases.map QueryParam.String)]

/-- All clause/parameter blocks of `build_where`, in emission order. -/
def blocks (f : QueryLogFilter) (now : Int) : List Block :=
  fromBlocks f ++ lastBlocks f now ++ toBlocks f ++ usersBlocks f ++
    minReadRowsBlocks f ++ minReadDataBlocks f ++ minQueryDurationBlocks f ++
    tablesBlocks f ++ databasesBlocks f

/-- Number of `?` placeholders in a clause fragment. -/
def countQ (s : String) : Nat := s.data.count '?'

/-- Model of `clickhouse::error::Error` as it reaches the client: the
failure modes named by the spec (connection failure, malformed response,
protocol-level error from the remote node). -/
inductive ChError where
  | Network (msg : String)
  | BadResponse (msg : String)
  | Protocol (msg : String)
deriving DecidableEq

/-- Model of `client::ClientError` (src/client.rs lines 68-87).  The
`Query` variant is built by `#[from] ChError` and holds only the
underlying clickhouse error; the send variants' row payloads are
irrelevant to the claims and are dropped. -/
inductive ClientError where
  | Query (e : ChError)
  | SendQueryLog
  | SendError
  | Send
  | Format
  | InitializationError
deriving DecidableEq

/-- Behaviour of one node in `execute_on_all_nodes`: the rows its cursor
will yield, followed by either a clean end of stream (`none`) or a
clickhouse error (`some e`). -/
structure NodeSpec (R : Type) where
  rows : List R
  failure : Option ChError
deriving DecidableEq

/-- Progress of one node's async task. -/
inductive NodeStatus (R : Type) where
  | running (rows : List R) (failure : Option ChError)
  | done
deriving DecidableEq

/-- Small-step execution of the fan-out in `Client::execute_on_all_nodes`
(src/client.rs lines 139-167).  The schedule picks which node task makes
progress next; a scheduled node either sends its next row into the
channel, finishes cleanly, or raises its error, in which case
`try_join_all` short-circuits: the run stops at once with
`ClientError::Query` of the underlying cause (rows already in the channel
stay there).  An exhausted schedule with tasks still running yields
`none` (the run is not finished). -/
def runFanout {R : Type} (nodes : List (NodeStatus R)) (chan : List R)
    (sched : List Nat) : Option (Except ClientError Unit) × List R :=
  match sched with
  | [] =>
      (if nodes.all fun s => match s with | .done => true | _ => false
       then some (Except.ok ()) else none, chan)
  | i :: rest =>
      match nodes[i]? with
      | some (NodeStatus.running (r :: rs) fl) =>
          runFanout (nodes.set i (NodeStatus.running rs fl)) (chan ++ [r]) rest
      | some (NodeStatus.running [] (some e)) =>
          (some (Except.error (ClientError.Query e)), chan)
      | some (NodeStatus.running [] none) =>
          runFanout (nodes.set i NodeStatus.done) chan rest
      | some NodeStatus.done => runFanout nodes chan rest
      | none => runFanout nodes chan rest

/-- Model of `Client::execute_on_all_nodes`: all node tasks start running
on an empty shared channel and execute under the given schedule. -/
def execute_on_all_nodes {R : Type} (nodes : List (NodeSpec R)) (sched : List Nat) :
    Option (Except ClientError Unit) × List R :=
  runFanout (nodes.map fun n => NodeStatus.running n.rows n.failure) [] sched

/-- Erase the retained query text of a record: used to state in which
fields merge order is irrelevant. -/
def QueryLog.clearQuery (q : QueryLog) : QueryLog := { q with query := "" }

/-! Concrete inputs used by witnesses and counterexamples. -/

/-- Error row with code 1002 and count 5 (tie on count with `err1003`). -/
def err1002 : Error := ⟨1002, "CODE_1002", 5, 0, "m1"⟩

/-- Error row with code 1003 and count 5 (tie on count with `err1002`). -/
def err1003 : Error := ⟨1003, "CODE_1003", 5, 0, "m2"⟩

/-- Query record with fingerprint 1 and total impact 30. -/
def q30 : QueryLog :=
  ⟨1, "q30", 0, 0, 0, 0, 0, 0, 0, 0, 0, 0, [], [], [], 0, 0, 0, 0, 0, 30⟩

/-- Query record with fingerprint 2 and total impact 10. -/
def q10 : QueryLog :=
  ⟨2, "q10", 0, 0, 0, 0, 0, 0, 0, 0, 0, 0, [], [], [], 0, 0, 0, 0, 0, 10⟩

/-- Query record with fingerprint 3 and total impact 50. -/
def q50 : QueryLog :=
  ⟨3, "q50", 0, 0, 0, 0, 0, 0, 0, 0, 0, 0, [], [], [], 0, 0, 0, 0, 0, 50⟩

/-- Row for fingerprint 7 whose retained query text is `"qA"`. -/
def rA : QueryLog :=
  ⟨7, "qA", 0, 0, 0, 0, 0, 0, 0, 0, 0, 0, [], [], [], 0, 0, 0, 0, 0, 0⟩

/-- Row identical to `rA` except for the query text. -/
def rB : QueryLog := { rA with query := "qB" }

/-- Row whose `users` list arrives unsorted. -/
def rBad : QueryLog := { rA with users := ["b", "a"] }

/-- Accumulator whose `io_impact` is the largest `u64` value. -/
def tMax : QueryLogTotal := ⟨0, U64MOD - 1, 0, 0, 0, 0, 0⟩

/-- Row contributing `io_impact` 1. -/
def tOne : QueryLogTotal := ⟨0, 1, 0, 0, 0, 0, 0⟩

/-- Three nodes: two succeed after one row each, the third fails. -/
def nodes3 : List (NodeSpec Nat) :=
  [⟨[1], none⟩, ⟨[2], none⟩, ⟨[], some (ChError.Network "boom")⟩]

/-- Two nodes where the first fails. -/
def nodesA : List (NodeSpec Nat) := [⟨[], some (ChError.Network "boom")⟩, ⟨[], none⟩]

/-- Two nodes where the second fails with the same underlying error. -/
def nodesB : List (NodeSpec Nat) := [⟨[], none⟩, ⟨[], some (ChError.Network "boom")⟩]

/-- Filter with `from` set, `tables = ["t1", "t2"]` and everything else
empty: the spec's worked example. -/
def fC : QueryLogFilter :=
  ⟨some ⟨1704067200, 0⟩, none, none, [], [], ["t1", "t2"], none, none, none⟩

/-! Helper lemmas. -/

theorem U64MOD_eq : U64MOD = 18446744073709551616 := by norm_num [U64MOD]

theorem impactInv_mergeQueryInto {e l : QueryLog} (he : e.impactInv) (hl : l.impactInv) :
    (mergeQueryInto e l).impactInv := by
  simp only [QueryLog.impactInv, mergeQueryInto, add64] at he hl ⊢
  rw [he, hl, U64MOD_eq]
  omega

theorem impactInv_merge_query_total {acc log : QueryLogTotal} (ha : acc.impactInv)
    (hl : log.impactInv) : (merge_query_total acc log).impactInv := by
  simp only [QueryLogTotal.impactInv, merge_query_total, add64] at ha hl ⊢
  rw [ha, hl, U64MOD_eq]
  omega

/-- C2: if every incoming row satisfies
`total_impact == io_impact + cpu_impact + memory_impact + time_impact + network_impact`
(as 64-bit values), then after every `merge_query` step every record of the
grouping table still satisfies the equation, and the `merge_query_total`
accumulator preserves it as well. -/
theorem merge_preserves_impact_invariant :
    (∀ (table : List QueryLog) (log : QueryLog),
        (∀ q ∈ table, q.impactInv) → log.impactInv →
        ∀ q ∈ merge_query table log, q.impactInv)
    ∧ (∀ acc log : QueryLogTotal, acc.impactInv → log.impactInv →
        (merge_query_total acc log).impactInv) := by
  constructor
  · intro table log ht hl q hq
    unfold merge_query at hq
    split at hq
    · simp only [List.mem_map] at hq
      obtain ⟨q', hq', rfl⟩ := hq
      split
      · exact impactInv_mergeQueryInto (ht q' hq') hl
      · exact ht q' hq'
    · rcases List.mem_append.mp hq with h | h
      · exact ht q h
      · rw [List.mem_singleton.mp h]; exact hl
  · exact fun acc log ha hl => impactInv_merge_query_total ha hl

/-- Witness for C2 at a concrete input. -/
theorem merge_preserves_impact_invariant_witness :
    (⟨0, 1, 1, 1, 1, 1, 5⟩ : QueryLogTotal).impactInv
    ∧ (merge_query_total ⟨0, 1, 1, 1, 1, 1, 5⟩ ⟨0, 1, 1, 1, 1, 1, 5⟩).impactInv := by
  have h : (⟨0, 1, 1, 1, 1, 1, 5⟩ : QueryLogTotal).impactInv := by
    simp [QueryLogTotal.impactInv, U64MOD_eq]
  exact ⟨h, merge_preserves_impact_invariant.2 _ _ h h⟩

/-- C4 amended: the aggregation arithmetic of the merge steps is unsigned
64-bit with wrap-around on overflow: every merged counter equals
`(a + b) % 2^64` (so it equals `a + b` exactly when no overflow occurs,
and wraps - rather than saturates - otherwise). -/
theorem merge_arith_wraps_mod_u64 :
    (∀ a b : Nat, add64 a b = (a + b) % U64MOD ∧ add64 a b < U64MOD
        ∧ (a + b < U64MOD → add64 a b = a + b))
    ∧ (∀ acc log : QueryLogTotal,
        (merge_query_total acc log).queries_count = add64 acc.queries_count log.queries_count
        ∧ (merge_query_total acc log).io_impact = add64 acc.io_impact log.io_impact
        ∧ (merge_query_total acc log).cpu_impact = add64 acc.cpu_impact log.cpu_impact
        ∧ (merge_query_total acc log).memory_impact = add64 acc.memory_impact log.memory_impact
        ∧ (merge_query_total acc log).time_impact = add64 acc.time_impact log.time_impact
        ∧ (merge_query_total acc log).network_impact = add64 acc.network_impact log.network_impact
        ∧ (merge_query_total acc log).total_impact = add64 acc.total_impact log.total_impact)
    ∧ (∀ e l : QueryLog,
        (mergeQueryInto e l).total_query_duration_ms
            = add64 e.total_query_duration_ms l.total_query_duration_ms
        ∧ (mergeQueryInto e l).total_read_rows = add64 e.total_read_rows l.total_read_rows
        ∧ (mergeQueryInto e l).total_read_bytes = add64 e.total_read_bytes l.total_read_bytes
        ∧ (mergeQueryInto e l).total_memory_usage = add64 e.total_memory_usage l.total_memory_usage
        ∧ (mergeQueryInto e l).total_user_time_us = add64 e.total_user_time_us l.total_user_time_us
        ∧ (mergeQueryInto e l).total_system_time_us
            = add64 e.total_system_time_us l.total_system_time_us
        ∧ (mergeQueryInto e l).total_network_send_bytes
            = add64 e.total_network_send_bytes l.total_network_send_bytes
        ∧ (mergeQueryInto e l).total_network_receive_bytes
            = add64 e.total_network_receive_bytes l.total_network_receive_bytes
        ∧ (mergeQueryInto e l).io_impact = add64 e.io_impact l.io_impact
        ∧ (mergeQueryInto e l).cpu_impact = add64 e.cpu_impact l.cpu_impact
        ∧ (mergeQueryInto e l).memory_impact = add64 e.memory_impact l.memory_impact
        ∧ (mergeQueryInto e l).time_impact = add64 e.time_impact l.time_impact
        ∧ (mergeQueryInto e l).network_impact = add64 e.network_impact l.network_impact
        ∧ (mergeQueryInto e l).total_impact = add64 e.total_impact l.total_impact) := by
  refine ⟨fun a b => ⟨rfl, ?_, fun h => Nat.mod_eq_of_lt h⟩, ?_, ?_⟩
  · exact Nat.mod_lt _ (by rw [U64MOD_eq]; omega)
  · exact fun acc log => ⟨rfl, rfl, rfl, rfl, rfl, rfl, rfl⟩
  · exact fun e l => ⟨rfl, rfl, rfl, rfl, rfl, rfl, rfl, rfl, rfl, rfl, rfl, rfl, rfl, rfl⟩

/-- Witness for C4 (amended) at a concrete input. -/
theorem merge_arith_wraps_mod_u64_witness :
    2 + 3 < U64MOD ∧ add64 2 3 = 2 + 3 :=
  ⟨by rw [U64MOD_eq]; omega,
   (merge_arith_wraps_mod_u64.1 2 3).2.2 (by rw [U64MOD_eq]; omega)⟩

/-- Counterexample for C4 as stated: at `io_impact` values `2^64 - 1` and
`1` the merged counter is `0` (wrap-around), not the saturated value
`2^64 - 1` required by the claim. -/
theorem merge_arith_not_saturating :
    (merge_query_total tMax tOne).io_impact = 0
    ∧ min (tMax.io_impact + tOne.io_impact) (U64MOD - 1) = U64MOD - 1
    ∧ (merge_query_total tMax tOne).io_impact
        ≠ min (tMax.io_impact + tOne.io_impact) (U64MOD - 1) := by
  refine ⟨?_, ?_, ?_⟩ <;> simp [merge_query_total, tMax, tOne, add64, U64MOD_eq]

theorem sorted_take_spec {α : Type} (r : α → α → Prop) [DecidableRel r] [IsTotal α r]
    [IsTrans α r] (l : List α) (limit : Nat) :
    List.Sorted r ((List.insertionSort r l).take limit)
    ∧ ((List.insertionSort r l).take limit).length = min limit l.length
    ∧ ∃ rest, (((List.insertionSort r l).take limit) ++ rest).Perm l
        ∧ ∀ a ∈ (List.insertionSort r l).take limit, ∀ b ∈ rest, r a b := by
  have hs := List.sorted_insertionSort r l
  refine ⟨List.Pairwise.sublist (List.take_sublist _ _) hs, ?_,
    (List.insertionSort r l).drop limit, ?_, ?_⟩
  · rw [List.length_take, List.length_insertionSort]
  · rw [List.take_append_drop]; exact List.perm_insertionSort r l
  · have hp : List.Pairwise r (((List.insertionSort r l).take limit)
        ++ ((List.insertionSort r l).drop limit)) := by
      rw [List.take_append_drop]; exact hs
    exact (List.pairwise_append.mp hp).2.2

/-- C5: `top_errors` returns the merged error records sorted by count
descending with code ascending as tie-break, truncated to the first
`limit` entries (every returned record ranks no worse, under that key,
than every record cut off); over two records with equal count the one
with the lower code comes first. -/
theorem top_errors_sorted_count_desc_code_asc :
    (∀ (errors : List Error) (limit : Nat),
      List.Sorted errKeyLe (top_errors errors limit)
      ∧ (top_errors errors limit).length = min limit errors.length
      ∧ ∃ rest, ((top_errors errors limit) ++ rest).Perm errors
          ∧ ∀ e1 ∈ top_errors errors limit, ∀ e2 ∈ rest, errKeyLe e1 e2)
    ∧ top_errors [err1002, err1003] 1 = [err1002]
    ∧ top_errors [err1003, err1002] 1 = [err1002] :=
  ⟨fun errors limit => sorted_take_spec errKeyLe errors limit, by decide, by decide⟩

/-- Witness for C5 at a concrete input. -/
theorem top_errors_sorted_count_desc_code_asc_witness :
    (top_errors [err1002, err1003] 1).length = min 1 2 :=
  (top_errors_sorted_count_desc_code_asc.1 [err1002, err1003] 1).2.1

/-- C6: `top_queries` returns the merged records sorted non-increasingly
in the caller-selected metric, truncated to the first `limit` entries
(every returned record's metric is at least every cut-off record's
metric); in particular, with limit 2 over records with total impacts
30, 10, 50 it returns the records with impacts 50 then 30. -/
theorem top_queries_sorted_by_selected_metric :
    (∀ (queries : List QueryLog) (limit : Nat) (sort_by : QueriesSortBy),
      List.Sorted (queryLe sort_by) (top_queries queries limit sort_by)
      ∧ (top_queries queries limit sort_by).length = min limit queries.length
      ∧ ∃ rest, ((top_queries queries limit sort_by) ++ rest).Perm queries
          ∧ ∀ q1 ∈ top_queries queries limit sort_by, ∀ q2 ∈ rest,
              sortKey sort_by q2 ≤ sortKey sort_by q1)
    ∧ (top_queries [q30, q10, q50] 2 QueriesSortBy.TotalImpact).map QueryLog.total_impact
        = [50, 30] :=
  ⟨fun queries limit sort_by => sorted_take_spec (queryLe sort_by) queries limit, by decide⟩

/-- Witness for C6 at a concrete input. -/
theorem top_queries_sorted_by_selected_metric_witness :
    (top_queries [q30, q10, q50] 2 QueriesSortBy.TotalImpact).length = min 2 3 :=
  (top_queries_sorted_by_selected_metric.1 [q30, q10, q50] 2 QueriesSortBy.TotalImpact).2.1

theorem pushFrom_eq (f : QueryLogFilter) (cp : List String × List QueryParam) :
    pushFrom f cp
      = (cp.1 ++ (fromBlocks f).map Prod.fst, cp.2 ++ ((fromBlocks f).map Prod.snd).flatten) := by
  cases h : f.from_ <;> simp [pushFrom, fromBlocks, h]

theorem pushLast_eq (f : QueryLogFilter) (now : Int) (cp : List String × List QueryParam) :
    pushLast f now cp
      = (cp.1 ++ (lastBlocks f now).map Prod.fst,
         cp.2 ++ ((lastBlocks f now).map Prod.snd).flatten) := by
  cases h : f.last <;> simp [pushLast, lastBlocks, h]

theorem pushTo_eq (f : QueryLogFilter) (cp : List String × List QueryParam) :
    pushTo f cp
      = (cp.1 ++ (toBlocks f).map Prod.fst, cp.2 ++ ((toBlocks f).map Prod.snd).flatten) := by
  cases h : f.to_ <;> simp [pushTo, toBlocks, h]

theorem pushUsers_eq (f : QueryLogFilter) (cp : List String × List QueryParam) :
    pushUsers f cp
      = (cp.1 ++ (usersBlocks f).map Prod.fst,
         cp.2 ++ ((usersBlocks f).map Prod.snd).flatten) := by
  by_cases h : f.users = [] <;> simp [pushUsers, usersBlocks, h]

theorem pushMinReadRows_eq (f : QueryLogFilter) (cp : List String × List QueryParam) :
    pushMinReadRows f cp
      = (cp.1 ++ (minReadRowsBlocks f).map Prod.fst,
         cp.2 ++ ((minReadRowsBlocks f).map Prod.snd).flatten) := by
  cases h : f.min_read_rows <;> simp [pushMinReadRows, minReadRowsBlocks, h]

theorem pushMinReadData_eq (f : QueryLogFilter) (cp : List String × List QueryParam) :
    pushMinReadData f cp
      = (cp.1 ++ (minReadDataBlocks f).map Prod.fst,
         cp.2 ++ ((minReadDataBlocks f).map Prod.snd).flatten) := by
  cases h : f.min_read_data <;> simp [pushMinReadData, minReadDataBlocks, h]

theorem pushMinQueryDuration_eq (f : QueryLogFilter) (cp : List String × List QueryParam) :
    pushMinQueryDuration f cp
      = (cp.1 ++ (minQueryDurationBlocks f).map Prod.fst,
         cp.2 ++ ((minQueryDurationBlocks f).map Prod.snd).flatten) := by
  cases h : f.min_query_duration <;> simp [pushMinQueryDuration, minQueryDurationBlocks, h]

theorem pushTables_eq (f : QueryLogFilter) (cp : List String × List QueryParam) :
    pushTables f cp
      = (cp.1 ++ (tablesBlocks f).map Prod.fst,
         cp.2 ++ ((tablesBlocks f).map Prod.snd).flatten) := by
  by_cases h : f.tables = [] <;> simp [pushTables, tablesBlocks, h]

theorem pushDatabases_eq (f : QueryLogFilter) (cp : List String × List QueryParam) :
    pushDatabases f cp
      = (cp.1 ++ (databasesBlocks f).map Prod.fst,
         cp.2 ++ ((databasesBlocks f).map Prod.snd).flatten) := by
  by_cases h : f.databases = [] <;> simp [pushDatabases, databasesBlocks, h]

/-- The clause vector built by `build_where` is the first projection of
the emission blocks, and the parameter vector is the concatenation of
their parameter lists, in the same block order. -/
theorem build_where_eq (f : QueryLogFilter) (now : Int) :
    build_where f now
      = (if blocks f now = [] then ""
         else "AND " ++ joinSep " AND " ((blocks f now).map Prod.fst),
         ((blocks f now).map Prod.snd).flatten) := by
  rw [build_where, pushFrom_eq, pushLast_eq, pushTo_eq, pushUsers_eq, pushMinReadRows_eq,
    pushMinReadData_eq, pushMinQueryDuration_eq, pushTables_eq, pushDatabases_eq]
  simp only [blocks, List.map_append, List.flatten_append, List.nil_append, List.append_assoc,
    List.append_eq_nil, List.map_eq_nil_iff]

theorem countQ_append (a b : String) : countQ (a ++ b) = countQ a + countQ b := by
  simp [countQ, String.data_append, List.count_append]

theorem countQ_qMarks (n : Nat) : countQ (qMarks n) = n := by
  induction n with
  | zero => decide
  | succ m ih =>
      cases m with
      | zero => decide
      | succ k =>
          have h1 : countQ "?" = 1 := by decide
          have h2 : countQ ", " = 0 := by decide
          rw [qMarks, countQ_append, countQ_append, ih, h1, h2]
          omega

/-- Every emission block of `build_where` has exactly as many `?`
placeholders in its clause as parameters in its parameter list. -/
theorem blocks_countQ (f : QueryLogFilter) (now : Int) :
    ∀ b ∈ blocks f now, countQ b.1 = b.2.length := by
  intro b hb
  simp only [blocks, List.mem_append] at hb
  have hq1 : countQ "event_time >= toDateTime(?, 'UTC')" = 1 := by decide
  have hq2 : countQ "event_time < toDateTime(?, 'UTC')" = 1 := by decide
  have hu0 : countQ "user IN (" = 0 := by decide
  have ht0 : countQ "hasAny(query_log.tables, [" = 0 := by decide
  have hd0 : countQ "hasAny(query_log.databases, [" = 0 := by decide
  have hc0 : countQ ")" = 0 := by decide
  have hb0 : countQ "])" = 0 := by decide
  rcases hb with ((((((((hb | hb) | hb) | hb) | hb) | hb) | hb) | hb) | hb)
  · unfold fromBlocks at hb
    rcases hfr : f.from_ with _ | t <;> rw [hfr] at hb <;> simp at hb
    subst hb; simpa using hq1
  · unfold lastBlocks at hb
    rcases hl : f.last with _ | d <;> rw [hl] at hb <;> simp at hb
    subst hb; simpa using hq1
  · unfold toBlocks at hb
    rcases hto : f.to_ with _ | t <;> rw [hto] at hb <;> simp at hb
    subst hb; simpa using hq2
  · unfold usersBlocks at hb
    split at hb <;> simp at hb
    subst hb; simp [countQ_append, countQ_qMarks, hu0, hc0]
  · unfold minReadRowsBlocks at hb
    rcases h : f.min_read_rows with _ | v <;> rw [h] at hb <;> simp at hb
    subst hb
    have : countQ "read_rows >= ?" = 1 := by decide
    simpa using this
  · unfold minReadDataBlocks at hb
    rcases h : f.min_read_data with _ | v <;> rw [h] at hb <;> simp at hb
    subst hb
    have : countQ "read_bytes >= ?" = 1 := by decide
    simpa using this
  · unfold minQueryDurationBlocks at hb
    rcases h : f.min_query_duration with _ | v <;> rw [h] at hb <;> simp at hb
    subst hb
    have : countQ "query_duration_ms >= ?" = 1 := by decide
    simpa using this
  · unfold tablesBlocks at hb
    split at hb <;> simp at hb
    subst hb; simp [countQ_append, countQ_qMarks, ht0, hb0]
  · unfold databasesBlocks at hb
    split at hb <;> simp at hb
    subst hb; simp [countQ_append, countQ_qMarks, hd0, hb0]

/-- C7: the `build_where` fragment and parameter vector decompose into
per-branch blocks emitted in source order, so parameters appear in the
same left-to-right order as their placeholders and each block carries
exactly as many `?` as parameters; a set `from` contributes exactly one
clause with exactly one timestamp parameter, and a non-empty `tables`
list contributes exactly one membership clause with one text parameter
per element in input order. -/
theorem build_where_clause_param_alignment :
    ∀ (f : QueryLogFilter) (now : Int),
      (build_where f now).2 = ((blocks f now).map Prod.snd).flatten
      ∧ (build_where f now).1
          = (if blocks f now = [] then ""
             else "AND " ++ joinSep " AND " ((blocks f now).map Prod.fst))
      ∧ (∀ b ∈ blocks f now, countQ b.1 = b.2.length)
      ∧ (∀ t, f.from_ = some t →
          fromBlocks f = [("event_time >= toDateTime(?, 'UTC')", [QueryParam.DateTime t])])
      ∧ (f.tables ≠ [] →
          tablesBlocks f
            = [("hasAny(query_log.tables, [" ++ qMarks f.tables.length ++ "])",
                f.tables.map QueryParam.String)]) := by
  intro f now
  refine ⟨?_, ?_, blocks_countQ f now, ?_, ?_⟩
  · rw [build_where_eq]
  · rw [build_where_eq]
  · intro t ht; simp [fromBlocks, ht]
  · intro ht; simp [tablesBlocks, ht]

/-- Witness for C7: the spec's worked example, evaluated. -/
theorem build_where_clause_param_alignment_witness :
    (build_where fC 0).1
        = "AND event_time >= toDateTime(?, 'UTC') AND hasAny(query_log.tables, [?, ?])"
    ∧ (build_where fC 0).2
        = [QueryParam.DateTime ⟨1704067200, 0⟩,
           QueryParam.String "t1", QueryParam.String "t2"] := by
  have h := build_where_clause_param_alignment fC 0
  exact ⟨h.2.1.trans (by decide), h.1.trans (by decide)⟩

/-- C9 amended: `to_sql_string` renders a timestamp as
`YYYY-MM-DD HH:MM:SS` of the value's own stored offset (the wall clock of
`unixSec + offsetSec`), which coincides with the UTC rendering exactly
when the stored offset is zero; unsigned-64 and signed-32 integers render
as plain decimal and text renders verbatim. -/
theorem to_sql_string_renders_wall_clock :
    (∀ t : OffsetDateTime,
        to_sql_string (QueryParam.DateTime t) = renderUTC (t.unixSec + t.offsetSec))
    ∧ (∀ t : OffsetDateTime, t.offsetSec = 0 →
        to_sql_string (QueryParam.DateTime t) = utcRender t)
    ∧ (∀ v : Nat, to_sql_string (QueryParam.UInt64 v) = toString v)
    ∧ (∀ v : Int, to_sql_string (QueryParam.Int32 v) = toString v)
    ∧ (∀ s : String, to_sql_string (QueryParam.String s) = s)
    ∧ renderUTC 1714834800 = "2024-05-04 15:00:00" := by
  refine ⟨fun t => rfl, fun t h => ?_, fun v => rfl, fun v => rfl, fun s => rfl, by decide⟩
  simp [to_sql_string, utcRender, h]

/-- Witness for C9 (amended) at a concrete input. -/
theorem to_sql_string_renders_wall_clock_witness :
    to_sql_string (QueryParam.DateTime ⟨1714834800, 0⟩) = utcRender ⟨1714834800, 0⟩ :=
  to_sql_string_renders_wall_clock.2.1 ⟨1714834800, 0⟩ rfl

/-- Counterexample for C9 as stated: for the instant 0 stored with offset
+01:00 the code renders the offset's wall clock `1970-01-01 01:00:00`,
not the UTC form `1970-01-01 00:00:00` the claim requires for every
input offset. -/
theorem to_sql_string_not_utc :
    to_sql_string (QueryParam.DateTime ⟨0, 3600⟩) = "1970-01-01 01:00:00"
    ∧ utcRender ⟨0, 3600⟩ = "1970-01-01 00:00:00"
    ∧ to_sql_string (QueryParam.DateTime ⟨0, 3600⟩) ≠ utcRender ⟨0, 3600⟩ := by
  refine ⟨by decide, by decide, by decide⟩

theorem dedupAdjacent_sublist {α : Type} [DecidableEq α] :
    ∀ l : List α, (dedupAdjacent l).Sublist l
  | [] => by simp [dedupAdjacent]
  | [a] => by simp [dedupAdjacent]
  | a :: b :: rest => by
      rw [dedupAdjacent]
      split
      · exact (dedupAdjacent_sublist (b :: rest)).cons a
      · exact (dedupAdjacent_sublist (b :: rest)).cons₂ a

theorem mem_dedupAdjacent {α : Type} [DecidableEq α] :
    ∀ (l : List α) (x : α), x ∈ dedupAdjacent l ↔ x ∈ l
  | [], x => by simp [dedupAdjacent]
  | [a], x => by simp [dedupAdjacent]
  | a :: b :: rest, x => by
      rw [dedupAdjacent]
      split
      · rename_i h
        rw [mem_dedupAdjacent (b :: rest) x]
        subst h
        simp
      · simp [mem_dedupAdjacent (b :: rest) x]

theorem sorted_lt_dedupAdjacent {α : Type} [LinearOrder α] [DecidableEq α] :
    ∀ l : List α, l.Sorted (· ≤ ·) → List.Sorted (· < ·) (dedupAdjacent l)
  | [], _ => by simp [dedupAdjacent]
  | [a], _ => by simp [dedupAdjacent]
  | a :: b :: rest, h => by
      have htail : List.Sorted (· ≤ ·) (b :: rest) := (List.sorted_cons.mp h).2
      rw [dedupAdjacent]
      split
      · exact sorted_lt_dedupAdjacent (b :: rest) htail
      · rename_i hne
        rw [List.sorted_cons]
        refine ⟨?_, sorted_lt_dedupAdjacent (b :: rest) htail⟩
        intro x hx
        have hab : a < b :=
          lt_of_le_of_ne ((List.sorted_cons.mp h).1 b (by simp)) hne
        rcases List.mem_cons.mp ((mem_dedupAdjacent _ x).mp hx) with rfl | hxr
        · exact hab
        · exact hab.trans_le ((List.sorted_cons.mp htail).1 x hxr)

theorem merge_string_vecs_sorted_nodup (t s : List String) :
    List.Sorted (· ≤ ·) (merge_string_vecs t s) ∧ (merge_string_vecs t s).Nodup := by
  have hlt := sorted_lt_dedupAdjacent _ (List.sorted_insertionSort (α := String) (· ≤ ·) (t ++ s))
  rw [merge_string_vecs]
  exact ⟨hlt.le_of_lt, hlt.nodup⟩

theorem mem_merge_string_vecs (t s : List String) (x : String) :
    x ∈ merge_string_vecs t s ↔ x ∈ t ∨ x ∈ s := by
  rw [merge_string_vecs, mem_dedupAdjacent, List.mem_insertionSort, List.mem_append]

/-- C10 amended: every record produced by folding a row into an existing
record (i.e. a record that has absorbed at least two rows) has its
`users`, `databases` and `tables` lists sorted in ascending order with no
duplicates; a record created by the first row for its fingerprint is
inserted verbatim (its lists are whatever the row carried). -/
theorem merged_record_lists_sorted_nodup :
    (∀ existing log : QueryLog,
        (List.Sorted (· ≤ ·) (mergeQueryInto existing log).users
          ∧ (mergeQueryInto existing log).users.Nodup)
        ∧ (List.Sorted (· ≤ ·) (mergeQueryInto existing log).databases
          ∧ (mergeQueryInto existing log).databases.Nodup)
        ∧ (List.Sorted (· ≤ ·) (mergeQueryInto existing log).tables
          ∧ (mergeQueryInto existing log).tables.Nodup))
    ∧ (∀ (table : List QueryLog) (log : QueryLog),
        (∀ q ∈ table, q.normalized_query_hash ≠ log.normalized_query_hash) →
        merge_query table log = table ++ [log]) := by
  constructor
  · intro e l
    exact ⟨merge_string_vecs_sorted_nodup _ _, merge_string_vecs_sorted_nodup _ _,
      merge_string_vecs_sorted_nodup _ _⟩
  · intro table log h
    rw [merge_query, if_neg]
    simp only [List.any_eq_true, beq_iff_eq]
    rintro ⟨q, hq, heq⟩
    exact h q hq heq

/-- Witness for C10 (amended) at a concrete input. -/
theorem merged_record_lists_sorted_nodup_witness :
    merge_query [] rBad = [] ++ [rBad] :=
  merged_record_lists_sorted_nodup.2 [] rBad (by simp)

/-- Counterexample for C10 as stated: a record that has received only one
row keeps that row's lists verbatim, so after merging the single row
`rBad` (whose `users` list is `["b", "a"]`) the table's record has an
unsorted `users` list. -/
theorem single_row_lists_unsorted :
    collect_logs [rBad] = [rBad] ∧ ¬ List.Sorted (· ≤ ·) rBad.users := by
  constructor
  · rfl
  · intro hs
    have hus : rBad.users = ["b", "a"] := rfl
    rw [hus] at hs
    have hba : ("b" : String) ≤ "a" := (List.sorted_cons.mp hs).1 "a" (by simp)
    have hab : ("a" : String) < "b" := by
      rw [String.lt_iff_toList_lt]; decide
    exact absurd hba (not_le.mpr hab)

theorem add64_comm (a b : Nat) : add64 a b = add64 b a := by
  simp [add64, Nat.add_comm]

theorem add64_right_comm (a b c : Nat) : add64 (add64 a b) c = add64 (add64 a c) b := by
  simp only [add64]
  rw [Nat.mod_add_mod, Nat.mod_add_mod, Nat.add_right_comm]

theorem max_rc {a b c : Int} : max (max a b) c = max (max a c) b := by
  rw [max_assoc, max_comm b c, ← max_assoc]

theorem min_rc {a b c : Int} : min (min a b) c = min (min a c) b := by
  rw [min_assoc, min_comm b c, ← min_assoc]

theorem sorted_nodup_ext {α : Type} [LinearOrder α] {l1 l2 : List α}
    (s1 : List.Sorted (· ≤ ·) l1) (n1 : l1.Nodup)
    (s2 : List.Sorted (· ≤ ·) l2) (n2 : l2.Nodup)
    (h : ∀ x, x ∈ l1 ↔ x ∈ l2) : l1 = l2 :=
  List.eq_of_perm_of_sorted ((List.perm_ext_iff_of_nodup n1 n2).mpr h) s1 s2

theorem merge_string_vecs_comm (t s : List String) :
    merge_string_vecs t s = merge_string_vecs s t := by
  obtain ⟨hs1, hn1⟩ := merge_string_vecs_sorted_nodup t s
  obtain ⟨hs2, hn2⟩ := merge_string_vecs_sorted_nodup s t
  exact sorted_nodup_ext hs1 hn1 hs2 hn2
    (fun x => by rw [mem_merge_string_vecs, mem_merge_string_vecs, or_comm])

theorem merge_string_vecs_right_comm (t s s' : List String) :
    merge_string_vecs (merge_string_vecs t s) s'
      = merge_string_vecs (merge_string_vecs t s') s := by
  obtain ⟨hs1, hn1⟩ := merge_string_vecs_sorted_nodup (merge_string_vecs t s) s'
  obtain ⟨hs2, hn2⟩ := merge_string_vecs_sorted_nodup (merge_string_vecs t s') s
  refine sorted_nodup_ext hs1 hn1 hs2 hn2 (fun x => ?_)
  simp only [mem_merge_string_vecs]
  tauto

theorem mergeQueryInto_right_comm (acc a b : QueryLog) :
    mergeQueryInto (mergeQueryInto acc a) b = mergeQueryInto (mergeQueryInto acc b) a := by
  simp only [mergeQueryInto]
  congr 1
  all_goals
    first
      | rfl
      | exact add64_right_comm _ _ _
      | exact max_rc
      | exact min_rc
      | exact merge_string_vecs_right_comm _ _ _

theorem mergeQueryInto_comm_of_hash {r1 r2 : QueryLog}
    (h : r1.normalized_query_hash = r2.normalized_query_hash) :
    (mergeQueryInto r1 r2).clearQuery = (mergeQueryInto r2 r1).clearQuery := by
  simp only [mergeQueryInto, QueryLog.clearQuery]
  congr 1
  all_goals
    first
      | rfl
      | exact h
      | exact add64_comm _ _
      | exact max_comm _ _
      | exact min_comm _ _
      | exact merge_string_vecs_comm _ _

theorem collect_logs_two {r1 r2 : QueryLog}
    (h : r1.normalized_query_hash = r2.normalized_query_hash) :
    collect_logs [r1, r2] = [mergeQueryInto r1 r2] := by
  simp [collect_logs, merge_query, h]

/-- C3 amended: merging two rows of the same fingerprint in either order
yields records identical in every field except the retained query text
(which is the first-merged row's text); folding rows into an existing
record is right-commutative outright, so once the first row is fixed the
final record - query text included - is independent of the order of the
remaining rows. -/
theorem merge_comm_assoc_except_query :
    (∀ r1 r2 : QueryLog,
        r1.normalized_query_hash = r2.normalized_query_hash →
        (collect_logs [r1, r2]).map QueryLog.clearQuery
          = (collect_logs [r2, r1]).map QueryLog.clearQuery)
    ∧ (∀ acc a b : QueryLog,
        mergeQueryInto (mergeQueryInto acc a) b = mergeQueryInto (mergeQueryInto acc b) a)
    ∧ (∀ (r0 : QueryLog) (rest rest' : List QueryLog), rest.Perm rest' →
        List.foldl mergeQueryInto r0 rest = List.foldl mergeQueryInto r0 rest') := by
  refine ⟨?_, mergeQueryInto_right_comm, ?_⟩
  · intro r1 r2 h
    rw [collect_logs_two h, collect_logs_two h.symm]
    simp [mergeQueryInto_comm_of_hash h]
  · intro r0 rest rest' hp
    haveI : RightCommutative mergeQueryInto := ⟨fun acc a b => mergeQueryInto_right_comm acc a b⟩
    exact hp.foldl_eq r0

/-- Witness for C3 (amended) at a concrete input. -/
theorem merge_comm_assoc_except_query_witness :
    (collect_logs [rA, rB]).map QueryLog.clearQuery
      = (collect_logs [rB, rA]).map QueryLog.clearQuery :=
  merge_comm_assoc_except_query.1 rA rB rfl

/-- Counterexample for C3 as stated: two rows of the same fingerprint
whose query texts differ produce different final records depending on
merge order - the retained query text is the first row's. -/
theorem merge_order_query_text_counterexample :
    collect_logs [rA, rB] ≠ collect_logs [rB, rA]
    ∧ (collect_logs [rA, rB]).map QueryLog.query = ["qA"]
    ∧ (collect_logs [rB, rA]).map QueryLog.query = ["qB"] := by
  refine ⟨by decide, by decide, by decide⟩

theorem runFanout_chan_mono {R : Type} :
    ∀ (sched : List Nat) (nodes : List (NodeStatus R)) (chan : List R),
      ∃ t, (runFanout nodes chan sched).2 = chan ++ t
  | [], nodes, chan => ⟨[], by simp [runFanout]⟩
  | i :: rest, nodes, chan => by
      rw [runFanout]
      split
      · rename_i r rs fl heq
        obtain ⟨t, ht⟩ := runFanout_chan_mono rest (nodes.set i (NodeStatus.running rs fl))
          (chan ++ [r])
        exact ⟨[r] ++ t, by rw [ht, List.append_assoc]⟩
      · exact ⟨[], by simp⟩
      · exact runFanout_chan_mono rest _ chan
      · exact runFanout_chan_mono rest _ chan
      · exact runFanout_chan_mono rest _ chan

theorem runFanout_error_of_failing {R : Type} :
    ∀ (sched : List Nat) (nodes : List (NodeStatus R)) (chan : List R)
      (res : Except ClientError Unit) (chanF : List R)
      (j : Nat) (rows : List R) (e : ChError),
      nodes[j]? = some (NodeStatus.running rows (some e)) →
      runFanout nodes chan sched = (some res, chanF) →
      ∃ ce, res = Except.error ce
  | [], nodes, chan, res, chanF, j, rows, e => by
      intro hj hrun
      rw [runFanout] at hrun
      split at hrun
      · rename_i hall
        obtain ⟨hlt, hget⟩ := List.getElem?_eq_some.mp hj
        have hmem := List.getElem_mem hlt
        rw [hget] at hmem
        have := List.all_eq_true.mp hall _ hmem
        simp at this
      · simp at hrun
  | i :: rest, nodes, chan, res, chanF, j, rows, e => by
      intro hj hrun
      rw [runFanout] at hrun
      split at hrun
      · rename_i r rs fl heq
        by_cases hij : i = j
        · subst hij
          rw [heq] at hj
          obtain ⟨hrows, hfl⟩ : r :: rs = rows ∧ fl = some e := by
            injection hj with h1
            injection h1 with h2 h3
            exact ⟨h2, h3⟩
          have hlt : i < nodes.length := (List.getElem?_eq_some.mp heq).1
          refine runFanout_error_of_failing rest _ _ _ _ i rs e ?_ hrun
          rw [List.getElem?_set]
          simp [hlt, hfl]
        · refine runFanout_error_of_failing rest _ _ _ _ j rows e ?_ hrun
          rw [List.getElem?_set]
          simp [hij, hj]
      · rename_i e' heq
        obtain ⟨h1, h2⟩ := Prod.mk.injEq .. ▸ hrun
        exact ⟨ClientError.Query e', (Option.some.inj h1).symm⟩
      · rename_i heq
        by_cases hij : i = j
        · subst hij
          rw [heq] at hj
          simp at hj
        · refine runFanout_error_of_failing rest _ _ _ _ j rows e ?_ hrun
          rw [List.getElem?_set]
          simp [hij, hj]
      · exact runFanout_error_of_failing rest _ _ _ _ j rows e hj hrun
      · exact runFanout_error_of_failing rest _ _ _ _ j rows e hj hrun

/-- C1: under every schedule, if any node's execution fails then a
finished fan-out returns an error, never success - even when every other
node delivered all of its rows into the channel first; and the channel
only ever grows during a run (rows already delivered are never
retracted). -/
theorem fanout_fails_on_node_failure {R : Type} :
    (∀ (nodes : List (NodeSpec R)) (sched : List Nat) (res : Except ClientError Unit)
        (chan : List R),
        execute_on_all_nodes nodes sched = (some res, chan) →
        (∃ n ∈ nodes, n.failure.isSome) →
        ∃ ce, res = Except.error ce)
    ∧ (∀ (nodes : List (NodeStatus R)) (chan : List R) (sched : List Nat),
        ∃ t, (runFanout nodes chan sched).2 = chan ++ t) := by
  constructor
  · intro nodes sched res chan hrun ⟨n, hmem, hfail⟩
    obtain ⟨e, he⟩ := Option.isSome_iff_exists.mp hfail
    obtain ⟨j, hj⟩ := List.mem_iff_getElem?.mp hmem
    refine runFanout_error_of_failing sched _ [] res chan j n.rows e ?_ hrun
    rw [List.getElem?_map, hj]
    simp [he]
  · exact fun nodes chan sched => runFanout_chan_mono sched nodes chan

/-- Witness for C1: three nodes, two of which deliver their rows before
the third fails; the finished run is an error and the two delivered rows
are in the channel. -/
theorem fanout_fails_on_node_failure_witness :
    execute_on_all_nodes nodes3 [0, 1, 2]
        = (some (Except.error (ClientError.Query (ChError.Network "boom"))), [1, 2])
    ∧ (∃ n ∈ nodes3, n.failure.isSome)
    ∧ ∃ ce, (Except.error (ClientError.Query (ChError.Network "boom")) :
          Except ClientError Unit) = Except.error ce := by
  have hrun : execute_on_all_nodes nodes3 [0, 1, 2]
      = (some (Except.error (ClientError.Query (ChError.Network "boom"))), [1, 2]) := rfl
  have hfail : ∃ n ∈ nodes3, n.failure.isSome :=
    ⟨⟨[], some (ChError.Network "boom")⟩, by simp [nodes3], rfl⟩
  exact ⟨hrun, hfail,
    (fanout_fails_on_node_failure (R := Nat)).1 nodes3 [0, 1, 2] _ [1, 2] hrun hfail⟩

theorem runFanout_error_shape {R : Type} :
    ∀ (sched : List Nat) (nodes : List (NodeStatus R)) (chan : List R)
      (ce : ClientError) (chanF : List R),
      runFanout nodes chan sched = (some (Except.error ce), chanF) →
      ∃ e, ce = ClientError.Query e
        ∧ ∃ (j : Nat) (rows : List R), nodes[j]? = some (NodeStatus.running rows (some e))
  | [], nodes, chan, ce, chanF => by
      intro hrun
      rw [runFanout] at hrun
      split at hrun <;> simp at hrun
  | i :: rest, nodes, chan, ce, chanF => by
      intro hrun
      rw [runFanout] at hrun
      split at hrun
      · rename_i r rs fl heq
        obtain ⟨e, hce, j, rows, hj⟩ := runFanout_error_shape rest _ _ _ _ hrun
        rw [List.getElem?_set] at hj
        by_cases hij : i = j
        · refine ⟨e, hce, i, r :: rs, ?_⟩
          rw [hij] at heq ⊢
          have hlt : j < nodes.length := (List.getElem?_eq_some.mp heq).1
          simp only [if_pos rfl, hij, hlt, if_true] at hj
          obtain ⟨h1, h2⟩ : rs = rows ∧ fl = some e := by
            injection Option.some.inj hj with h1 h2
            exact ⟨h1, h2⟩
          rw [heq, h2]
        · rw [if_neg hij] at hj
          exact ⟨e, hce, j, rows, hj⟩
      · rename_i e' heq
        refine ⟨e', ?_, i, [], heq⟩
        have h1 := congrArg Prod.fst hrun
        exact (Except.error.inj (Option.some.inj h1)).symm
      · rename_i heq
        obtain ⟨e, hce, j, rows, hj⟩ := runFanout_error_shape rest _ _ _ _ hrun
        rw [List.getElem?_set] at hj
        by_cases hij : i = j
        · have hlt : i < nodes.length := (List.getElem?_eq_some.mp heq).1
          simp [hij, hij ▸ hlt] at hj
        · rw [if_neg hij] at hj
          exact ⟨e, hce, j, rows, hj⟩
      · exact runFanout_error_shape rest _ _ _ _ hrun
      · exact runFanout_error_shape rest _ _ _ _ hrun

/-- C8 amended: every node-execution failure (connection failure,
malformed response, or protocol-level error) is surfaced to the caller as
the single `ClientError::Query` kind carrying the underlying clickhouse
error; the identity of the offending node is not part of the surfaced
error. -/
theorem query_failures_surface_as_query_kind {R : Type} :
    ∀ (nodes : List (NodeSpec R)) (sched : List Nat) (ce : ClientError) (chan : List R),
      execute_on_all_nodes nodes sched = (some (Except.error ce), chan) →
      ∃ e, ce = ClientError.Query e ∧ ∃ n ∈ nodes, n.failure = some e := by
  intro nodes sched ce chan hrun
  obtain ⟨e, hce, j, rows, hj⟩ := runFanout_error_shape sched _ [] ce chan hrun
  rw [List.getElem?_map] at hj
  obtain ⟨n, hn, hmap⟩ := Option.map_eq_some'.mp hj
  refine ⟨e, hce, n, ?_, ?_⟩
  · obtain ⟨hlt, hget⟩ := List.getElem?_eq_some.mp hn
    exact hget ▸ List.getElem_mem hlt
  · injection hmap with h1 h2

/-- Witness for C8 (amended) at a concrete input. -/
theorem query_failures_surface_as_query_kind_witness :
    ∃ e, ClientError.Query (ChError.Network "boom") = ClientError.Query e
      ∧ ∃ n ∈ nodesA, n.failure = some e :=
  query_failures_surface_as_query_kind nodesA [0, 1]
    (ClientError.Query (ChError.Network "boom")) [] rfl

/-- Counterexample for C8 as stated: two fan-outs in which different
nodes are the offender (node 0 in `nodesA`, node 1 in `nodesB`) surface
bit-for-bit identical results under the same schedule, so the surfaced
error carries no information identifying the offending node. -/
theorem client_error_lacks_node_identity :
    execute_on_all_nodes nodesA [0, 1] = execute_on_all_nodes nodesB [0, 1]
    ∧ execute_on_all_nodes nodesA [0, 1]
        = (some (Except.error (ClientError.Query (ChError.Network "boom"))), [])
    ∧ nodesA[0]?.map NodeSpec.failure ≠ nodesB[0]?.map NodeSpec.failure := by
  refine ⟨rfl, rfl, by decide⟩

end Clickcheck
